import Mathlib

/-!
Verification of fusebook (fusebook/fusebook.py), a read-only FUSE filesystem
that projects Jupyter notebooks as directories.  The development shallowly
embeds the two components of the source: FuseNotebook (the projection of a
single notebook: namespace construction in loadnb, plus readdir, getattr and
read) and FuseNotebookDir (the router: path classification, the projection
cache and dispatch).  External collaborators are embedded as parameters
(mimetypes.guess_extension) or as models of the Python standard library
(utf-8 encoding, base64 decoding, pathlib name and suffix).
-/

namespace Fusebook

/-- Byte strings are modelled as lists of byte values (each a Nat below 256). -/
abbrev Bytes := List Nat

/-- A Python dict is modelled as an association list in insertion order. -/
abbrev Dict (kk aa : Type) := List (kk × aa)

/-- Python dict assignment: replace the value in place if the key exists
(keeping its position, as CPython dicts do), otherwise append a new binding. -/
def dictInsert {kk aa : Type} [DecidableEq kk] (m : Dict kk aa) (k : kk) (v : aa) :
    Dict kk aa :=
  match m with
  | [] => [(k, v)]
  | (k', v') :: rest => if k' = k then (k, v) :: rest else (k', v') :: dictInsert rest k v

/-- Python dict lookup; keys are unique when the dict is built with dictInsert. -/
def dictLookup {kk aa : Type} [DecidableEq kk] (m : Dict kk aa) (k : kk) : Option aa :=
  match m with
  | [] => none
  | (k', v') :: rest => if k' = k then some v' else dictLookup rest k

/-- UTF-8 encoding of a single character, the standard one-to-four byte
encoding used by Python str.encode. -/
def utf8EncodeChar (c : Char) : List Nat :=
  let n := c.toNat
  if n < 0x80 then [n]
  else if n < 0x800 then
    [0xC0 ||| (n >>> 6), 0x80 ||| (n &&& 0x3F)]
  else if n < 0x10000 then
    [0xE0 ||| (n >>> 12), 0x80 ||| ((n >>> 6) &&& 0x3F), 0x80 ||| (n &&& 0x3F)]
  else
    [0xF0 ||| (n >>> 18), 0x80 ||| ((n >>> 12) &&& 0x3F),
     0x80 ||| ((n >>> 6) &&& 0x3F), 0x80 ||| (n &&& 0x3F)]

/-- Python s.encode applied with the utf-8 codec. -/
def utf8Encode (s : String) : Bytes := (s.data.map utf8EncodeChar).flatten

/-- Python bytes(s, "ascii") for the ascii payloads fed to the base64 decoder. -/
def asciiEncode (s : String) : Bytes := s.data.map Char.toNat

/-- Value of one base64 alphabet byte; none for bytes outside the alphabet,
which the decoder skips (binascii behaviour, also dropping the padding sign). -/
def b64Val (b : Nat) : Option Nat :=
  if 65 ≤ b ∧ b ≤ 90 then some (b - 65)
  else if 97 ≤ b ∧ b ≤ 122 then some (b - 71)
  else if 48 ≤ b ∧ b ≤ 57 then some (b + 4)
  else if b = 43 then some 62
  else if b = 47 then some 63
  else none

/-- Split a stream of six-bit values into quanta of four. -/
def b64Chunks (l : List Nat) : List (List Nat) :=
  match l with
  | a :: b :: c :: d :: rest => [a, b, c, d] :: b64Chunks rest
  | [] => []
  | rest => [rest]

/-- Decode one quantum of up to four six-bit values into bytes; a short final
quantum (its padding already stripped) yields correspondingly fewer bytes. -/
def b64Quantum (q : List Nat) : List Nat :=
  match q with
  | [a, b, c, d] =>
      [(a <<< 2) + (b >>> 4), ((b % 16) <<< 4) + (c >>> 2), ((c % 4) <<< 6) + d]
  | [a, b, c] => [(a <<< 2) + (b >>> 4), ((b % 16) <<< 4) + (c >>> 2)]
  | [a, b] => [(a <<< 2) + (b >>> 4)]
  | _ => []

/-- Model of base64.decodestring: skip bytes outside the base64 alphabet and
decode the six-bit values quantum by quantum. -/
def b64Decode (bs : Bytes) : Bytes :=
  ((b64Chunks (bs.filterMap b64Val)).map b64Quantum).flatten

/-- Filesystem paths as lists of components, the parts of a pathlib Path
without its anchor.  An absolute FUSE request path has its leading separator
stripped by the router before resolution, so request paths are also carried in
this form. -/
abbrev FsPath := List String

/-- Pathlib Path.name: the final path component, empty for a bare root. -/
def pathName (p : FsPath) : String := p.getLastD ""

/-- Index of the last dot in a list of characters (Python str.rfind). -/
def rfindDot (cs : List Char) : Option Nat :=
  match cs with
  | [] => none
  | c :: rest =>
      match rfindDot rest with
      | some i => some (i + 1)
      | none => if c = '.' then some 0 else none

/-- Pathlib suffix of one file name: the part from the last dot on, empty when
the dot is leading, trailing or absent. -/
def nameSuffix (name : String) : String :=
  match rfindDot name.data with
  | some i => if 0 < i ∧ i < name.length - 1 then String.mk (name.data.drop i) else ""
  | none => ""

/-- Pathlib Path.suffix: the suffix of the final component. -/
def pathSuffix (p : FsPath) : String := nameSuffix (pathName p)

/-- Insert into an ascending list of strings (code-point order, as Python
string comparison). -/
def insertSorted (s : String) : List String → List String
  | [] => [s]
  | x :: xs => if s < x then s :: x :: xs else x :: insertSorted s xs

/-- Python sorted on a list of strings, by insertion sort. -/
def sortStrings (l : List String) : List String := l.foldr insertSorted []

/-- Snapshot of lstat attributes; timestamps are carried as integral ticks. -/
structure Stat where
  st_atime : Nat
  st_ctime : Nat
  st_gid : Nat
  st_mode : Nat
  st_mtime : Nat
  st_nlink : Nat
  st_size : Nat
  st_uid : Nat
deriving DecidableEq

/-- The attribute record returned by the getattr operations. -/
structure Attrs where
  st_atime : Nat
  st_ctime : Nat
  st_gid : Nat
  st_mode : Nat
  st_mtime : Nat
  st_nlink : Nat
  st_size : Nat
  st_uid : Nat
deriving DecidableEq

/-- A code-cell output: a stream (name plus text body), display_data or
execute_result (a MIME-to-payload mapping in insertion order), or any other
output type, which loadnb skips.  Text bodies are lists of fragments, the
normalised form of the str-or-list-of-str duck typing handled by maybe_join. -/
inductive Output where
  | stream (name : String) (text : List String)
  | display_data (data : Dict String (List String))
  | execute_result (data : Dict String (List String))
  | other
deriving DecidableEq

/-- A notebook cell: markdown, code with its outputs, or any other cell type
(for example raw), which loadnb skips. -/
inductive Cell where
  | markdown (source : List String)
  | code (source : List String) (outputs : List Output)
  | other
deriving DecidableEq

/-- A decoded format-4 notebook: the code file extension taken from
metadata.language_info.file_extension, and the ordered cells. -/
structure Notebook where
  codeext : String
  cells : List Cell
deriving DecidableEq

/-- The tag-and-payload pair recorded in fnames for each virtual file. -/
inductive FKind where
  | markdown (cell : Cell)
  | code (cell : Cell)
  | stream (output : Output)
  | data (mime : String) (payload : List String)
deriving DecidableEq

/-- Python maybe_join on the normalised list-of-fragments form: concatenate. -/
def maybe_join (x : List String) : String := String.join x

/-- Synthesized name of markdown cell i. -/
def mdName (i : Nat) : String := "cell" ++ toString i ++ ".md"

/-- Synthesized name of code cell i, with the document code extension. -/
def codeName (i : Nat) (codeext : String) : String := "cell" ++ toString i ++ codeext

/-- Synthesized name of stream output j of cell i. -/
def streamName (i j : Nat) (name : String) : String :=
  "cell" ++ toString i ++ "_out" ++ toString j ++ "_" ++ name ++ ".txt"

/-- Rendering of the guess_extension result inside str.format: a present
extension is spliced verbatim, while Python renders the value None as the
four-letter string None. -/
def pyFormatExt (ext : Option String) : String :=
  match ext with
  | some e => e
  | none => "None"

/-- Synthesized name of MIME entry k of data output j of cell i. -/
def dataName (i j k : Nat) (ext : Option String) : String :=
  "cell" ++ toString i ++ "_out" ++ toString j ++ "_data" ++ toString k ++ pyFormatExt ext

/-- The namespace map from synthesized names to kind tags. -/
abbrev NbNames := Dict String FKind

/-- The namespace map from synthesized names to materialized contents. -/
abbrev NbData := Dict String Bytes

/-- The MIME types whose payload is base64-encoded binary (matching the
nbconvert behaviour noted in the source). -/
def isBinaryMime (mime : String) : Bool :=
  mime == "image/png" || mime == "image/jpeg" || mime == "application/pdf"

/-- Inner loop of loadnb over the data mapping of one display_data or
execute_result output of cell i, output index j: entry k is named with
dataName and the guessed extension, binary MIME payloads are base64-decoded,
all other payloads utf-8 encoded. -/
def loadData (ge : String → Option String) (i j : Nat)
    (entries : Dict String (List String)) (k : Nat) (fn : NbNames) (fd : NbData) :
    NbNames × NbData :=
  match entries with
  | [] => (fn, fd)
  | (mime, payload) :: rest =>
      let fname := dataName i j k (ge mime)
      loadData ge i j rest (k + 1)
        (dictInsert fn fname (.data mime payload))
        (dictInsert fd fname
          (if isBinaryMime mime then b64Decode (asciiEncode (maybe_join payload))
           else utf8Encode (maybe_join payload)))

/-- Loop of loadnb over the outputs of code cell i. -/
def loadOutputs (ge : String → Option String) (i : Nat)
    (outs : List Output) (j : Nat) (fn : NbNames) (fd : NbData) : NbNames × NbData :=
  match outs with
  | [] => (fn, fd)
  | out :: rest =>
      let next :=
        match out with
        | .stream name text =>
            let fname := streamName i j name
            (dictInsert fn fname (.stream out),
             dictInsert fd fname (utf8Encode (maybe_join text)))
        | .display_data data => loadData ge i j data 0 fn fd
        | .execute_result data => loadData ge i j data 0 fn fd
        | .other => (fn, fd)
      loadOutputs ge i rest (j + 1) next.1 next.2

/-- Loop of loadnb over the notebook cells, assigning positional indices. -/
def loadCells (ge : String → Option String) (codeext : String)
    (cells : List Cell) (i : Nat) (fn : NbNames) (fd : NbData) : NbNames × NbData :=
  match cells with
  | [] => (fn, fd)
  | cell :: rest =>
      let next :=
        match cell with
        | .markdown source =>
            let fname := mdName i
            (dictInsert fn fname (.markdown cell),
             dictInsert fd fname (utf8Encode (maybe_join source)))
        | .code source outputs =>
            let fname := codeName i codeext
            loadOutputs ge i outputs 0
              (dictInsert fn fname (.code cell))
              (dictInsert fd fname (utf8Encode (maybe_join source)))
        | .other => (fn, fd)
      loadCells ge codeext rest (i + 1) next.1 next.2

/-- Errors surfaced by the embedded operations: FuseOSError(ENOENT), and the
two uncaught Python exception families that can escape the source (a KeyError
from an fdata lookup, and the nbformat decode errors). -/
inductive Err where
  | enoent
  | keyError
  | decodeError
deriving DecidableEq

/-- The FUSE view of one notebook: the backing path, the read-write flag, the
construction-time lstat snapshot, and the virtual namespace, fnames holding
the kind tags and fdata the materialized byte contents. -/
structure FuseNotebook where
  root : FsPath
  rw : Bool
  stat : Stat
  fnames : NbNames
  fdata : NbData
deriving DecidableEq

/-- FuseNotebook.loadnb applied to the already-decoded document: walk the
cells in order, assigning file names and extracting contents. -/
def FuseNotebook.loadnb (ge : String → Option String) (node : Notebook) :
    NbNames × NbData :=
  loadCells ge node.codeext node.cells 0 [] []

/-- FuseNotebook construction from a decoded document: record the lstat
snapshot of the backing file and build the namespace with loadnb. -/
def FuseNotebook.ofNode (root : FsPath) (rw : Bool) (stat : Stat) (node : Notebook)
    (ge : String → Option String) : FuseNotebook :=
  { root := root, rw := rw, stat := stat,
    fnames := (FuseNotebook.loadnb ge node).1,
    fdata := (FuseNotebook.loadnb ge node).2 }

/-- FuseNotebook.readdir: the two pseudo-entries followed by the sorted
synthesized names. -/
def FuseNotebook.readdir (nb : FuseNotebook) : List String :=
  "." :: ".." :: sortStrings (nb.fnames.map Prod.fst)

/-- FuseNotebook.getattr: for a name present in fnames, every attribute except
the size is copied from the snapshot of the backing notebook file, and the
size is the byte length of the virtual content; otherwise FuseOSError(ENOENT).
The final path component plays the role of the name. -/
def FuseNotebook.getattr (nb : FuseNotebook) (path : FsPath) : Except Err Attrs :=
  if (dictLookup nb.fnames (pathName path)).isSome then
    match dictLookup nb.fdata (pathName path) with
    | some data =>
        .ok { st_atime := nb.stat.st_atime, st_ctime := nb.stat.st_ctime,
              st_gid := nb.stat.st_gid, st_mode := nb.stat.st_mode,
              st_mtime := nb.stat.st_mtime, st_nlink := nb.stat.st_nlink,
              st_size := data.length, st_uid := nb.stat.st_uid }
    | none => .error .keyError
  else .error .enoent

/-- FuseNotebook.read: for a name present in fnames, the Python slice of the
content from offset to offset plus length; otherwise FuseOSError(ENOENT). -/
def FuseNotebook.read (nb : FuseNotebook) (path : FsPath) (length offset : Nat) :
    Except Err Bytes :=
  if (dictLookup nb.fnames (pathName path)).isSome then
    match dictLookup nb.fdata (pathName path) with
    | some data => .ok ((data.drop offset).take length)
    | none => .error .keyError
  else .error .enoent

/-- Model of the real filesystem under the mount root: which paths are
directories and which are regular files, their lstat records, and, for the
paths holding valid notebook content, the decoded document.  A notebook path
absent from nbdocs fails to decode (the nbformat reader raises). -/
structure RealFS where
  dirs : List FsPath
  files : List FsPath
  stats : Dict FsPath Stat
  nbdocs : Dict FsPath Notebook

/-- Pathlib Path.is_dir in the model. -/
def RealFS.isDir (fs : RealFS) (p : FsPath) : Bool := fs.dirs.contains p

/-- Pathlib Path.is_file in the model. -/
def RealFS.isFile (fs : RealFS) (p : FsPath) : Bool := fs.files.contains p

/-- Pathlib Path.lstat in the model; the callers only stat paths that exist,
for which a record is present in stats. -/
def lstatFS (fs : RealFS) (p : FsPath) : Stat :=
  (dictLookup fs.stats p).getD ⟨0, 0, 0, 0, 0, 0, 0, 0⟩

/-- FuseNotebook.__init__ against the modelled filesystem: take the lstat
snapshot, then decode and load the notebook; a path that does not decode
raises out of the constructor. -/
def FuseNotebook.make (fs : RealFS) (root : FsPath) (rw : Bool)
    (ge : String → Option String) : Except Err FuseNotebook :=
  match dictLookup fs.nbdocs root with
  | some node => .ok (FuseNotebook.ofNode root rw (lstatFS fs root) node ge)
  | none => .error .decodeError

/-- The four named path classes of the router; the source returns the Python
value None as the class of an absent path, embedded as the Option none. -/
inductive PathType where
  | nbcont
  | dir
  | file
  | nb
deriving DecidableEq

/-- The router cache of notebook projections, keyed by real path. -/
abbrev NbCache := Dict FsPath FuseNotebook

/-- FuseNotebookDir._classify: resolve the request against the real root and
identify it, in order of precedence, as notebook contents when the parent is a
real file with the notebook suffix, else a real directory, else a real file,
notebook or not by its own suffix, else absent.  The second component is the
real path the class refers to: the parent notebook file for notebook contents,
the resolved path otherwise.  Pathlib Path.parent drops the final component. -/
def FuseNotebookDir._classify (fs : RealFS) (root : FsPath) (path : FsPath) :
    Option PathType × FsPath :=
  let fspath := root ++ path
  if fs.isFile fspath.dropLast && (pathSuffix fspath.dropLast == ".ipynb") then
    (some .nbcont, fspath.dropLast)
  else if fs.isDir fspath then (some .dir, fspath)
  else if fs.isFile fspath then
    if pathSuffix fspath == ".ipynb" then (some .nb, fspath) else (some .file, fspath)
  else (none, fspath)

/-- FuseNotebookDir._notebook: return the cached projection for the path if
one exists, otherwise construct one and cache it.  A construction failure
propagates and leaves the cache unchanged. -/
def FuseNotebookDir._notebook (fs : RealFS) (ge : String → Option String) (rw : Bool)
    (cache : NbCache) (fspath : FsPath) : Except Err FuseNotebook × NbCache :=
  match dictLookup cache fspath with
  | some nb => (.ok nb, cache)
  | none =>
      match FuseNotebook.make fs fspath rw ge with
      | .ok nb => (.ok nb, dictInsert cache fspath nb)
      | .error e => (.error e, cache)

/-- Copy the eight stat fields of a real entry into an attribute record, the
dict comprehension of FuseNotebookDir.getattr. -/
def statToAttrs (st : Stat) : Attrs :=
  { st_atime := st.st_atime, st_ctime := st.st_ctime, st_gid := st.st_gid,
    st_mode := st.st_mode, st_mtime := st.st_mtime, st_nlink := st.st_nlink,
    st_size := st.st_size, st_uid := st.st_uid }

/-- FuseNotebookDir.getattr: notebook contents delegate to the projection,
real entries copy their lstat record, a notebook file synthesizes directory
attributes (directory mode bits with permissions 775, one link, a nominal
4096-byte size, ownership and timestamps from the backing file), and an
absent path fails with FuseOSError(ENOENT). -/
def FuseNotebookDir.getattr (fs : RealFS) (ge : String → Option String) (rw : Bool)
    (root : FsPath) (cache : NbCache) (path : FsPath) : Except Err Attrs × NbCache :=
  match FuseNotebookDir._classify fs root path with
  | (some .nbcont, fspath) =>
      match FuseNotebookDir._notebook fs ge rw cache fspath with
      | (.ok nb, cache') => (nb.getattr path, cache')
      | (.error e, cache') => (.error e, cache')
  | (some .dir, fspath) => (.ok (statToAttrs (lstatFS fs fspath)), cache)
  | (some .file, fspath) => (.ok (statToAttrs (lstatFS fs fspath)), cache)
  | (some .nb, fspath) =>
      (.ok { st_atime := (lstatFS fs fspath).st_atime,
             st_ctime := (lstatFS fs fspath).st_ctime,
             st_gid := (lstatFS fs fspath).st_gid,
             st_mode := 0o40000 ||| 0o775,
             st_mtime := (lstatFS fs fspath).st_mtime,
             st_nlink := 1, st_size := 4096,
             st_uid := (lstatFS fs fspath).st_uid }, cache)
  | (none, _) => (.error .enoent, cache)

/-- Names of the immediate children of a real directory, Path.iterdir over
the modelled filesystem. -/
def childNames (fs : RealFS) (p : FsPath) : List String :=
  ((fs.dirs ++ fs.files).filter
    (fun c => c.length == p.length + 1 && c.dropLast == p)).map (fun c => c.getLastD "")

/-- FuseNotebookDir.readdir: a real directory lists its children after the two
pseudo-entries, a notebook file delegates to the projection listing (building
the projection first if needed, so a decode failure propagates), and for every
other class the generator body yields nothing, so the call returns an empty
listing and raises no error. -/
def FuseNotebookDir.readdir (fs : RealFS) (ge : String → Option String) (rw : Bool)
    (root : FsPath) (cache : NbCache) (path : FsPath) :
    Except Err (List String) × NbCache :=
  match FuseNotebookDir._classify fs root path with
  | (some .dir, fspath) => (.ok ("." :: ".." :: childNames fs fspath), cache)
  | (some .nb, fspath) =>
      match FuseNotebookDir._notebook fs ge rw cache fspath with
      | (.ok nb, cache') => (.ok nb.readdir, cache')
      | (.error e, cache') => (.error e, cache')
  | _ => (.ok [], cache)

/-! Helper lemmas: evolution of dict keys under insertion, and the invariant
that loadnb populates fnames and fdata at exactly the same keys. -/

/-- Key list after a dict insert: unchanged when the key is present, the key
appended when it is new. -/
def keyIns {kk : Type} [DecidableEq kk] (ks : List kk) (k : kk) : List kk :=
  match ks with
  | [] => [k]
  | k' :: rest => if k' = k then k' :: rest else k' :: keyIns rest k

theorem dictInsert_keys {kk aa : Type} [DecidableEq kk] (m : Dict kk aa) (k : kk) (v : aa) :
    (dictInsert m k v).map Prod.fst = keyIns (m.map Prod.fst) k := by
  induction m with
  | nil => simp [dictInsert, keyIns]
  | cons hd tl ih =>
      obtain ⟨k', v'⟩ := hd
      by_cases h : k' = k
      · simp [dictInsert, keyIns, h]
      · simp [dictInsert, keyIns, h, ih]

theorem dictLookup_isSome_iff {kk aa : Type} [DecidableEq kk] (m : Dict kk aa) (k : kk) :
    (dictLookup m k).isSome = true ↔ k ∈ m.map Prod.fst := by
  induction m with
  | nil => simp [dictLookup]
  | cons hd tl ih =>
      obtain ⟨k', v'⟩ := hd
      by_cases h : k' = k
      · simp [dictLookup, h]
      · simp [dictLookup, h, ih, Ne.symm h]

theorem dictLookup_eq_none_iff {kk aa : Type} [DecidableEq kk] (m : Dict kk aa) (k : kk) :
    dictLookup m k = none ↔ k ∉ m.map Prod.fst := by
  rw [← dictLookup_isSome_iff]
  cases dictLookup m k <;> simp

theorem dictLookup_insert_self {kk aa : Type} [DecidableEq kk] (m : Dict kk aa) (k : kk) (v : aa) :
    dictLookup (dictInsert m k v) k = some v := by
  induction m with
  | nil => simp [dictInsert, dictLookup]
  | cons hd tl ih =>
      obtain ⟨k', v'⟩ := hd
      by_cases h : k' = k
      · simp [dictInsert, dictLookup, h]
      · simp [dictInsert, dictLookup, h, ih]

theorem loadData_keys (ge : String → Option String) (i j : Nat)
    (entries : Dict String (List String)) :
    ∀ (k : Nat) (fn : NbNames) (fd : NbData),
      fn.map Prod.fst = fd.map Prod.fst →
      (loadData ge i j entries k fn fd).1.map Prod.fst
        = (loadData ge i j entries k fn fd).2.map Prod.fst := by
  induction entries with
  | nil => intro k fn fd h; simpa [loadData] using h
  | cons e rest ih =>
      intro k fn fd h
      obtain ⟨mime, payload⟩ := e
      simp only [loadData]
      exact ih _ _ _ (by rw [dictInsert_keys, dictInsert_keys, h])

theorem loadOutputs_keys (ge : String → Option String) (i : Nat) (outs : List Output) :
    ∀ (j : Nat) (fn : NbNames) (fd : NbData),
      fn.map Prod.fst = fd.map Prod.fst →
      (loadOutputs ge i outs j fn fd).1.map Prod.fst
        = (loadOutputs ge i outs j fn fd).2.map Prod.fst := by
  induction outs with
  | nil => intro j fn fd h; simpa [loadOutputs] using h
  | cons out rest ih =>
      intro j fn fd h
      cases out with
      | stream name text =>
          simp only [loadOutputs]
          exact ih _ _ _ (by rw [dictInsert_keys, dictInsert_keys, h])
      | display_data data =>
          simp only [loadOutputs]
          exact ih _ _ _ (loadData_keys ge i j data 0 fn fd h)
      | execute_result data =>
          simp only [loadOutputs]
          exact ih _ _ _ (loadData_keys ge i j data 0 fn fd h)
      | other =>
          simp only [loadOutputs]
          exact ih _ _ _ h

theorem loadCells_keys (ge : String → Option String) (codeext : String)
    (cells : List Cell) :
    ∀ (i : Nat) (fn : NbNames) (fd : NbData),
      fn.map Prod.fst = fd.map Prod.fst →
      (loadCells ge codeext cells i fn fd).1.map Prod.fst
        = (loadCells ge codeext cells i fn fd).2.map Prod.fst := by
  induction cells with
  | nil => intro i fn fd h; simpa [loadCells] using h
  | cons cell rest ih =>
      intro i fn fd h
      cases cell with
      | markdown source =>
          simp only [loadCells]
          exact ih _ _ _ (by rw [dictInsert_keys, dictInsert_keys, h])
      | code source outputs =>
          simp only [loadCells]
          exact ih _ _ _ (loadOutputs_keys ge i outputs 0
            (dictInsert fn (codeName i codeext) (.code (.code source outputs)))
            (dictInsert fd (codeName i codeext) (utf8Encode (maybe_join source)))
            (by rw [dictInsert_keys, dictInsert_keys, h]))
      | other =>
          simp only [loadCells]
          exact ih _ _ _ h

/-- The namespace invariant: loadnb records names and contents at the same
keys, in the same order. -/
theorem loadnb_keys (ge : String → Option String) (node : Notebook) :
    (FuseNotebook.loadnb ge node).1.map Prod.fst
      = (FuseNotebook.loadnb ge node).2.map Prod.fst :=
  loadCells_keys ge node.codeext node.cells 0 [] [] rfl

/-- A name present in the fnames of a constructed projection has content in
its fdata. -/
theorem ofNode_fdata_present (root : FsPath) (rw : Bool) (stat : Stat)
    (node : Notebook) (ge : String → Option String) (f : String) :
    (dictLookup (FuseNotebook.ofNode root rw stat node ge).fnames f).isSome = true →
    ∃ d, dictLookup (FuseNotebook.ofNode root rw stat node ge).fdata f = some d := by
  intro h
  rw [dictLookup_isSome_iff] at h
  rw [FuseNotebook.ofNode] at h ⊢
  simp only at h ⊢
  rw [loadnb_keys] at h
  rw [← dictLookup_isSome_iff, Option.isSome_iff_exists] at h
  exact h

/-! Helper lemmas: evaluation of the projection operations on present and
absent names. -/

theorem nb_getattr_present (nb : FuseNotebook) (path : FsPath) (d : Bytes)
    (hs : (dictLookup nb.fnames (pathName path)).isSome = true)
    (hd : dictLookup nb.fdata (pathName path) = some d) :
    nb.getattr path = .ok
      { st_atime := nb.stat.st_atime, st_ctime := nb.stat.st_ctime,
        st_gid := nb.stat.st_gid, st_mode := nb.stat.st_mode,
        st_mtime := nb.stat.st_mtime, st_nlink := nb.stat.st_nlink,
        st_size := d.length, st_uid := nb.stat.st_uid } := by
  unfold FuseNotebook.getattr
  rw [if_pos hs, hd]

theorem nb_getattr_absent (nb : FuseNotebook) (path : FsPath)
    (hn : dictLookup nb.fnames (pathName path) = none) :
    nb.getattr path = .error .enoent := by
  have h' : ¬((dictLookup nb.fnames (pathName path)).isSome = true) := by
    rw [hn]; simp
  unfold FuseNotebook.getattr
  rw [if_neg h']

theorem nb_read_present (nb : FuseNotebook) (path : FsPath) (d : Bytes)
    (length offset : Nat)
    (hs : (dictLookup nb.fnames (pathName path)).isSome = true)
    (hd : dictLookup nb.fdata (pathName path) = some d) :
    nb.read path length offset = .ok ((d.drop offset).take length) := by
  unfold FuseNotebook.read
  rw [if_pos hs, hd]

theorem nb_read_absent (nb : FuseNotebook) (path : FsPath) (length offset : Nat)
    (hn : dictLookup nb.fnames (pathName path) = none) :
    nb.read path length offset = .error .enoent := by
  have h' : ¬((dictLookup nb.fnames (pathName path)).isSome = true) := by
    rw [hn]; simp
  unfold FuseNotebook.read
  rw [if_neg h']

/-! Concrete fixtures shared by the claim theorems and their witnesses. -/

/-- The notebook of the spec scenario: one markdown cell holding a title and
one code cell with a stream output, document code extension .py. -/
def scenarioNode : Notebook :=
  { codeext := ".py",
    cells := [.markdown ["# Title"], .code ["print(1)"] [.stream "stdout" ["1\n"]]] }

/-- An extension guesser that knows no extension at all. -/
def geNone : String → Option String := fun _ => none

/-- An extension guesser that knows only the png extension. -/
def gePng : String → Option String :=
  fun m => if m == "image/png" then some ".png" else none

/-- A distinguishable lstat snapshot used by the witnesses. -/
def wStat : Stat := ⟨11, 12, 13, 14, 15, 16, 17, 18⟩

/-- The real path of the scenario notebook under the root directory data. -/
def nbPath : FsPath := ["data", "nb.ipynb"]

/-- C1: for the scenario notebook (one markdown cell with a title, one code
cell printing, with one stdout stream output, code extension .py), loadnb
produces exactly the namespace mapping cell0.md, cell1.py and
cell1_out0_stdout.txt to the utf-8 encodings of the concatenated bodies,
following the cell-index naming scheme, whatever the extension guesser. -/
theorem loadnb_scenario_namespace :
    ∀ ge : String → Option String,
      (FuseNotebook.loadnb ge scenarioNode).2 =
        [("cell0.md", [35, 32, 84, 105, 116, 108, 101]),
         ("cell1.py", [112, 114, 105, 110, 116, 40, 49, 41]),
         ("cell1_out0_stdout.txt", [49, 10])] ∧
      (FuseNotebook.loadnb ge scenarioNode).2 =
        [(mdName 0, utf8Encode "# Title"),
         (codeName 1 ".py", utf8Encode "print(1)"),
         (streamName 1 0 "stdout", utf8Encode "1\n")] ∧
      (FuseNotebook.loadnb ge scenarioNode).1.map Prod.fst =
        ["cell0.md", "cell1.py", "cell1_out0_stdout.txt"] :=
  fun _ => ⟨rfl, rfl, rfl⟩

/-- A notebook whose only output carries a single MIME entry for which no
extension is known. -/
def unknownMimeNode : Notebook :=
  { codeext := ".py",
    cells := [.code ["x"] [.display_data [("application/x-custom", ["hi"])]]] }

/-- C3 counterexample: with guess_extension returning no extension for the
single MIME entry, the synthesized name is cell0_out0_data0None, because
str.format renders the Python value None as the string None; the
extensionless name cell0_out0_data0 predicted by the claim is absent from the
namespace. -/
theorem dataName_none_counterexample :
    geNone "application/x-custom" = none ∧
    (FuseNotebook.loadnb geNone unknownMimeNode).2.map Prod.fst =
      ["cell0.py", "cell0_out0_data0None"] ∧
    dictLookup (FuseNotebook.loadnb geNone unknownMimeNode).2 "cell0_out0_data0" = none :=
  ⟨rfl, rfl, rfl⟩

/-- A notebook whose only output carries two MIME entries, one with a known
extension and one without. -/
def pngMimeNode : Notebook :=
  { codeext := ".py",
    cells := [.code ["x"]
      [.display_data [("image/png", ["aGVsbG8="]), ("application/x-custom", ["hi"])]]] }

/-- C3 amended: MIME entry k of data output j of cell i is exposed under the
name cell(i)_out(j)_data(k) followed by the guessed extension when one is
found, and followed by the literal string None when guess_extension returns
no extension (Python str.format renders None that way), as the two formatting
identities state and the two-entry notebook exercises at k equal to 0 and 1. -/
theorem dataName_format_amended :
    (∀ (i j k : Nat) (e : String),
      dataName i j k (some e) =
        "cell" ++ toString i ++ "_out" ++ toString j ++ "_data" ++ toString k ++ e) ∧
    (∀ i j k : Nat,
      dataName i j k none =
        "cell" ++ toString i ++ "_out" ++ toString j ++ "_data" ++ toString k ++ "None") ∧
    (FuseNotebook.loadnb gePng pngMimeNode).2.map Prod.fst =
      ["cell0.py", "cell0_out0_data0.png", "cell0_out0_data1None"] :=
  ⟨fun _ _ _ _ => rfl, fun _ _ _ => rfl, rfl⟩

/-- C4: on a constructed projection, getattr of every present name reports
st_size equal to the byte length of the materialized content, and reading the
whole reported size from offset 0 returns exactly the content. -/
theorem getattr_size_read_roundtrip :
    ∀ (root : FsPath) (rw : Bool) (stat : Stat) (node : Notebook)
      (ge : String → Option String) (path : FsPath) (knd : FKind),
      dictLookup (FuseNotebook.ofNode root rw stat node ge).fnames (pathName path) =
        some knd →
      ∃ (a : Attrs) (d : Bytes),
        (FuseNotebook.ofNode root rw stat node ge).getattr path = .ok a ∧
        dictLookup (FuseNotebook.ofNode root rw stat node ge).fdata (pathName path) =
          some d ∧
        a.st_size = d.length ∧
        (FuseNotebook.ofNode root rw stat node ge).read path a.st_size 0 = .ok d := by
  intro root rw stat node ge path knd h
  have hs : (dictLookup (FuseNotebook.ofNode root rw stat node ge).fnames
      (pathName path)).isSome = true := by rw [h]; rfl
  obtain ⟨d, hd⟩ := ofNode_fdata_present root rw stat node ge (pathName path) hs
  refine ⟨_, d, nb_getattr_present _ _ _ hs hd, hd, rfl, ?_⟩
  rw [nb_read_present _ _ d _ _ hs hd]
  simp

/-- C4 witness at the scenario notebook and the markdown cell name. -/
theorem getattr_size_read_roundtrip_witness :
    dictLookup (FuseNotebook.ofNode nbPath false wStat scenarioNode geNone).fnames
        (pathName ["nb.ipynb", "cell0.md"]) = some (.markdown (.markdown ["# Title"])) ∧
    (∃ (a : Attrs) (d : Bytes),
      (FuseNotebook.ofNode nbPath false wStat scenarioNode geNone).getattr
          ["nb.ipynb", "cell0.md"] = .ok a ∧
      dictLookup (FuseNotebook.ofNode nbPath false wStat scenarioNode geNone).fdata
          (pathName ["nb.ipynb", "cell0.md"]) = some d ∧
      a.st_size = d.length ∧
      (FuseNotebook.ofNode nbPath false wStat scenarioNode geNone).read
          ["nb.ipynb", "cell0.md"] a.st_size 0 = .ok d) :=
  ⟨rfl, getattr_size_read_roundtrip nbPath false wStat scenarioNode geNone
    ["nb.ipynb", "cell0.md"] (.markdown (.markdown ["# Title"])) rfl⟩

/-- C5: on a constructed projection, reading any present name returns the
Python slice of the content clipped to its bounds and never an error: from an
offset at or past the end it returns no bytes, and an overlong read returns
exactly the bytes from the offset to the end. -/
theorem read_clipping :
    ∀ (root : FsPath) (rw : Bool) (stat : Stat) (node : Notebook)
      (ge : String → Option String) (path : FsPath) (knd : FKind) (length offset : Nat),
      dictLookup (FuseNotebook.ofNode root rw stat node ge).fnames (pathName path) =
        some knd →
      ∃ d : Bytes,
        dictLookup (FuseNotebook.ofNode root rw stat node ge).fdata (pathName path) =
          some d ∧
        (FuseNotebook.ofNode root rw stat node ge).read path length offset =
          .ok ((d.drop offset).take length) ∧
        (d.length ≤ offset →
          (FuseNotebook.ofNode root rw stat node ge).read path length offset = .ok []) ∧
        (d.length < offset + length →
          ∃ r : Bytes,
            (FuseNotebook.ofNode root rw stat node ge).read path length offset = .ok r ∧
            r.length = d.length - offset) := by
  intro root rw stat node ge path knd length offset h
  have hs : (dictLookup (FuseNotebook.ofNode root rw stat node ge).fnames
      (pathName path)).isSome = true := by rw [h]; rfl
  obtain ⟨d, hd⟩ := ofNode_fdata_present root rw stat node ge (pathName path) hs
  have hread := nb_read_present (FuseNotebook.ofNode root rw stat node ge) path d
    length offset hs hd
  have hlen : ((d.drop offset).take length).length = min length (d.length - offset) := by
    simp
  refine ⟨d, hd, hread, ?_, ?_⟩
  · intro hoff
    rw [hread]
    have hnil : (d.drop offset).take length = [] :=
      List.eq_nil_of_length_eq_zero (by rw [hlen]; omega)
    rw [hnil]
  · intro hover
    refine ⟨(d.drop offset).take length, hread, ?_⟩
    rw [hlen]
    omega

/-- C5 witness at the scenario notebook: an overlong read of the seven-byte
markdown content from offset 3. -/
theorem read_clipping_witness :
    dictLookup (FuseNotebook.ofNode nbPath false wStat scenarioNode geNone).fnames
        (pathName ["nb.ipynb", "cell0.md"]) = some (.markdown (.markdown ["# Title"])) ∧
    (∃ d : Bytes,
      dictLookup (FuseNotebook.ofNode nbPath false wStat scenarioNode geNone).fdata
          (pathName ["nb.ipynb", "cell0.md"]) = some d ∧
      (FuseNotebook.ofNode nbPath false wStat scenarioNode geNone).read
          ["nb.ipynb", "cell0.md"] 10 3 = .ok ((d.drop 3).take 10) ∧
      (d.length ≤ 3 →
        (FuseNotebook.ofNode nbPath false wStat scenarioNode geNone).read
          ["nb.ipynb", "cell0.md"] 10 3 = .ok []) ∧
      (d.length < 3 + 10 →
        ∃ r : Bytes,
          (FuseNotebook.ofNode nbPath false wStat scenarioNode geNone).read
            ["nb.ipynb", "cell0.md"] 10 3 = .ok r ∧
          r.length = d.length - 3)) :=
  ⟨rfl, read_clipping nbPath false wStat scenarioNode geNone ["nb.ipynb", "cell0.md"]
    (.markdown (.markdown ["# Title"])) 10 3 rfl⟩

/-- C6: on a constructed projection, getattr and read succeed exactly on the
names present in the namespace and fail exactly on the absent ones, and the
failure is always FuseOSError(ENOENT). -/
theorem notfound_iff_absent :
    ∀ (root : FsPath) (rw : Bool) (stat : Stat) (node : Notebook)
      (ge : String → Option String) (path : FsPath) (length offset : Nat),
      ((∃ a, (FuseNotebook.ofNode root rw stat node ge).getattr path = .ok a) ↔
        pathName path ∈ (FuseNotebook.ofNode root rw stat node ge).fnames.map Prod.fst) ∧
      ((FuseNotebook.ofNode root rw stat node ge).getattr path = .error .enoent ↔
        pathName path ∉ (FuseNotebook.ofNode root rw stat node ge).fnames.map Prod.fst) ∧
      ((∃ d, (FuseNotebook.ofNode root rw stat node ge).read path length offset = .ok d) ↔
        pathName path ∈ (FuseNotebook.ofNode root rw stat node ge).fnames.map Prod.fst) ∧
      ((FuseNotebook.ofNode root rw stat node ge).read path length offset =
          .error .enoent ↔
        pathName path ∉ (FuseNotebook.ofNode root rw stat node ge).fnames.map Prod.fst) := by
  intro root rw stat node ge path length offset
  by_cases hmem : pathName path ∈
      (FuseNotebook.ofNode root rw stat node ge).fnames.map Prod.fst
  · have hs : (dictLookup (FuseNotebook.ofNode root rw stat node ge).fnames
        (pathName path)).isSome = true := (dictLookup_isSome_iff _ _).mpr hmem
    obtain ⟨d, hd⟩ := ofNode_fdata_present root rw stat node ge (pathName path) hs
    have hga := nb_getattr_present (FuseNotebook.ofNode root rw stat node ge) path d hs hd
    have hrd := nb_read_present (FuseNotebook.ofNode root rw stat node ge) path d
      length offset hs hd
    refine ⟨?_, ?_, ?_, ?_⟩
    · simp [hga, hmem]
    · simp [hga, hmem]
    · simp [hrd, hmem]
    · simp [hrd, hmem]
  · have hn : dictLookup (FuseNotebook.ofNode root rw stat node ge).fnames
        (pathName path) = none := (dictLookup_eq_none_iff _ _).mpr hmem
    have hga := nb_getattr_absent (FuseNotebook.ofNode root rw stat node ge) path hn
    have hrd := nb_read_absent (FuseNotebook.ofNode root rw stat node ge) path
      length offset hn
    refine ⟨?_, ?_, ?_, ?_⟩
    · simp [hga, hmem]
    · simp [hga, hmem]
    · simp [hrd, hmem]
    · simp [hrd, hmem]

/-- C6 witness: at the scenario notebook, a present name succeeds and an
absent name fails with the no-entry error, obtained from the two directions
of the characterization. -/
theorem notfound_iff_absent_witness :
    (∃ a, (FuseNotebook.ofNode nbPath false wStat scenarioNode geNone).getattr
        ["nb.ipynb", "cell1.py"] = .ok a) ∧
    (FuseNotebook.ofNode nbPath false wStat scenarioNode geNone).read
        ["nb.ipynb", "missing.txt"] 4 0 = .error .enoent :=
  ⟨((notfound_iff_absent nbPath false wStat scenarioNode geNone
      ["nb.ipynb", "cell1.py"] 4 0).1).mpr (by decide),
   ((notfound_iff_absent nbPath false wStat scenarioNode geNone
      ["nb.ipynb", "missing.txt"] 4 0).2.2.2).mpr (by decide)⟩

/-- C10: the projection operations depend on the request path only through
its final component: equal basenames give identical getattr records and
identical read slices, whatever the directory prefix. -/
theorem ops_depend_only_on_basename :
    ∀ (nb : FuseNotebook) (p1 p2 : FsPath) (length offset : Nat),
      pathName p1 = pathName p2 →
      nb.getattr p1 = nb.getattr p2 ∧
      nb.read p1 length offset = nb.read p2 length offset := by
  intro nb p1 p2 length offset h
  constructor
  · unfold FuseNotebook.getattr
    rw [h]
  · unfold FuseNotebook.read
    rw [h]

/-- C10 witness: two paths with different prefixes but the same basename give
identical results on the scenario projection. -/
theorem ops_depend_only_on_basename_witness :
    pathName ["nb.ipynb", "cell0.md"] = pathName ["other", "deeper", "cell0.md"] ∧
    ((FuseNotebook.ofNode nbPath false wStat scenarioNode geNone).getattr
        ["nb.ipynb", "cell0.md"] =
      (FuseNotebook.ofNode nbPath false wStat scenarioNode geNone).getattr
        ["other", "deeper", "cell0.md"] ∧
     (FuseNotebook.ofNode nbPath false wStat scenarioNode geNone).read
        ["nb.ipynb", "cell0.md"] 3 1 =
      (FuseNotebook.ofNode nbPath false wStat scenarioNode geNone).read
        ["other", "deeper", "cell0.md"] 3 1) :=
  ⟨rfl, ops_depend_only_on_basename (FuseNotebook.ofNode nbPath false wStat scenarioNode
    geNone) ["nb.ipynb", "cell0.md"] ["other", "deeper", "cell0.md"] 3 1 rfl⟩

/-- The real tree of the classification scenario: the root directory data
holding the notebook nb.ipynb and a subdirectory subdir. -/
def scenarioFS : RealFS :=
  { dirs := [["data"], ["data", "subdir"]], files := [["data", "nb.ipynb"]],
    stats := [], nbdocs := [] }

/-- C2: the classification applies exactly the stated precedence: notebook
contents when the parent resolves to a real file with the notebook suffix
(the parent being the routing key), else real directory, else notebook or
plain real file by the path's own suffix, else absent; and in the scenario
tree the notebook resolves as a notebook root, a name under it as notebook
contents keyed by the notebook path, and the subdirectory as a real
directory. -/
theorem classify_precedence :
    (∀ (fs : RealFS) (root path : FsPath),
      (FuseNotebookDir._classify fs root path = (some .nbcont, (root ++ path).dropLast) ↔
        fs.isFile (root ++ path).dropLast = true ∧
        pathSuffix (root ++ path).dropLast = ".ipynb") ∧
      (FuseNotebookDir._classify fs root path = (some .dir, root ++ path) ↔
        ¬(fs.isFile (root ++ path).dropLast = true ∧
            pathSuffix (root ++ path).dropLast = ".ipynb") ∧
        fs.isDir (root ++ path) = true) ∧
      (FuseNotebookDir._classify fs root path = (some .nb, root ++ path) ↔
        ¬(fs.isFile (root ++ path).dropLast = true ∧
            pathSuffix (root ++ path).dropLast = ".ipynb") ∧
        fs.isDir (root ++ path) = false ∧ fs.isFile (root ++ path) = true ∧
        pathSuffix (root ++ path) = ".ipynb") ∧
      (FuseNotebookDir._classify fs root path = (some .file, root ++ path) ↔
        ¬(fs.isFile (root ++ path).dropLast = true ∧
            pathSuffix (root ++ path).dropLast = ".ipynb") ∧
        fs.isDir (root ++ path) = false ∧ fs.isFile (root ++ path) = true ∧
        pathSuffix (root ++ path) ≠ ".ipynb") ∧
      (FuseNotebookDir._classify fs root path = (none, root ++ path) ↔
        ¬(fs.isFile (root ++ path).dropLast = true ∧
            pathSuffix (root ++ path).dropLast = ".ipynb") ∧
        fs.isDir (root ++ path) = false ∧ fs.isFile (root ++ path) = false)) ∧
    FuseNotebookDir._classify scenarioFS ["data"] ["nb.ipynb"] =
      (some .nb, ["data", "nb.ipynb"]) ∧
    FuseNotebookDir._classify scenarioFS ["data"] ["nb.ipynb", "cell0.md"] =
      (some .nbcont, ["data", "nb.ipynb"]) ∧
    FuseNotebookDir._classify scenarioFS ["data"] ["subdir"] =
      (some .dir, ["data", "subdir"]) := by
  refine ⟨?_, rfl, rfl, rfl⟩
  intro fs root path
  simp only [FuseNotebookDir._classify]
  split_ifs with h1 h2 h3 h4 <;>
    simp_all [Prod.ext_iff, Bool.and_eq_true, beq_iff_eq]

/-- C2 witness: the general characterization applied to the scenario tree,
recovering the notebook-contents classification from its two conditions. -/
theorem classify_precedence_witness :
    FuseNotebookDir._classify scenarioFS ["data"] ["nb.ipynb", "cell0.md"] =
      (some .nbcont, (["data"] ++ ["nb.ipynb", "cell0.md"]).dropLast) :=
  ((classify_precedence.1 scenarioFS ["data"] ["nb.ipynb", "cell0.md"]).1).mpr
    (by decide)

/-- The real tree for the readdir scenario: the root holds a plain file
notes.txt and a notebook nb.ipynb. -/
def readdirFS : RealFS :=
  { dirs := [["data"]], files := [["data", "notes.txt"], ["data", "nb.ipynb"]],
    stats := [], nbdocs := [] }

/-- C7 (recording the code bug): for a real non-notebook file, a path inside
a notebook and an absent path, the source readdir falls through its two
branches, so the generator yields nothing: the call succeeds with an empty
listing and touches no cache, instead of failing with NotADirectory as the
spec requires. -/
theorem readdir_silently_empty :
    FuseNotebookDir.readdir readdirFS geNone false ["data"] [] ["notes.txt"] =
      (.ok [], []) ∧
    FuseNotebookDir.readdir readdirFS geNone false ["data"] [] ["nb.ipynb", "cell0.md"] =
      (.ok [], []) ∧
    FuseNotebookDir.readdir readdirFS geNone false ["data"] [] ["absent"] =
      (.ok [], []) :=
  ⟨rfl, rfl, rfl⟩

/-- C8: the projection cache of the router.  A failed construction leaves the
cache unchanged and surfaces the decode error, so the next access retries; a
cached path is answered from the cache with the cache unchanged; a successful
construction caches the projection, and a later access to it returns the very
same projection whatever filesystem, guesser or flag the later call sees,
that is, without re-decoding. -/
theorem notebook_cache_behaviour :
    ∀ (fs fs' : RealFS) (ge ge' : String → Option String) (rw rw' : Bool) (p : FsPath),
      (∀ cache : NbCache,
        dictLookup cache p = none → dictLookup fs.nbdocs p = none →
        FuseNotebookDir._notebook fs ge rw cache p = (.error .decodeError, cache)) ∧
      (∀ (cache : NbCache) (nb : FuseNotebook),
        dictLookup cache p = some nb →
        FuseNotebookDir._notebook fs ge rw cache p = (.ok nb, cache)) ∧
      (∀ (cache : NbCache) (nb : FuseNotebook),
        dictLookup cache p = none →
        FuseNotebook.make fs p rw ge = .ok nb →
        FuseNotebookDir._notebook fs ge rw cache p = (.ok nb, dictInsert cache p nb) ∧
        FuseNotebookDir._notebook fs' ge' rw' (dictInsert cache p nb) p =
          (.ok nb, dictInsert cache p nb)) := by
  intro fs fs' ge ge' rw rw' p
  refine ⟨?_, ?_, ?_⟩
  · intro cache hc hn
    simp only [FuseNotebookDir._notebook, FuseNotebook.make, hc, hn]
  · intro cache nb hc
    simp only [FuseNotebookDir._notebook, hc]
  · intro cache nb hc hm
    constructor
    · simp only [FuseNotebookDir._notebook, hc, hm]
    · simp only [FuseNotebookDir._notebook, dictLookup_insert_self]

/-- The modelled filesystem in which the scenario notebook decodes. -/
def okFS : RealFS :=
  { dirs := [["data"]], files := [nbPath], stats := [(nbPath, wStat)],
    nbdocs := [(nbPath, scenarioNode)] }

/-- The same tree with undecodable notebook content. -/
def errFS : RealFS :=
  { dirs := [["data"]], files := [nbPath], stats := [(nbPath, wStat)], nbdocs := [] }

/-- The projection the router builds for the scenario notebook. -/
def cachedNb : FuseNotebook :=
  FuseNotebook.ofNode nbPath false (lstatFS okFS nbPath) scenarioNode geNone

/-- C8 witness: a failing decode leaves the empty cache empty; a cached entry
is returned unchanged; a successful construction inserts, and the inserted
projection is then served even against the undecodable filesystem. -/
theorem notebook_cache_behaviour_witness :
    FuseNotebookDir._notebook errFS geNone false [] nbPath =
      (.error .decodeError, []) ∧
    FuseNotebookDir._notebook okFS geNone false [(nbPath, cachedNb)] nbPath =
      (.ok cachedNb, [(nbPath, cachedNb)]) ∧
    (FuseNotebookDir._notebook okFS geNone false [] nbPath =
      (.ok cachedNb, dictInsert [] nbPath cachedNb) ∧
     FuseNotebookDir._notebook errFS gePng true (dictInsert [] nbPath cachedNb) nbPath =
      (.ok cachedNb, dictInsert [] nbPath cachedNb)) :=
  ⟨(notebook_cache_behaviour errFS errFS geNone geNone false false nbPath).1 [] rfl rfl,
   (notebook_cache_behaviour okFS okFS geNone geNone false false nbPath).2.1
     [(nbPath, cachedNb)] cachedNb rfl,
   (notebook_cache_behaviour okFS errFS geNone gePng false true nbPath).2.2
     [] cachedNb rfl rfl⟩

/-- C9: a path classified as a notebook root gets synthesized directory
attributes: directory mode bits with permissions 775, a one-block nominal
size of 4096 bytes, a link count of 1, and ownership and timestamps copied
verbatim from the lstat of the backing notebook file; the cache is untouched. -/
theorem nbroot_getattr_synthesized :
    ∀ (fs : RealFS) (ge : String → Option String) (rw : Bool) (root : FsPath)
      (cache : NbCache) (path fspath : FsPath),
      FuseNotebookDir._classify fs root path = (some .nb, fspath) →
      FuseNotebookDir.getattr fs ge rw root cache path =
        (.ok { st_atime := (lstatFS fs fspath).st_atime,
               st_ctime := (lstatFS fs fspath).st_ctime,
               st_gid := (lstatFS fs fspath).st_gid,
               st_mode := 0o40000 ||| 0o775,
               st_mtime := (lstatFS fs fspath).st_mtime,
               st_nlink := 1, st_size := 4096,
               st_uid := (lstatFS fs fspath).st_uid }, cache) := by
  intro fs ge rw root cache path fspath h
  simp only [FuseNotebookDir.getattr, h]

/-- C9 witness: on the concrete tree the notebook path classifies as a
notebook root and getattr returns the synthesized directory record built
from the concrete lstat snapshot. -/
theorem nbroot_getattr_synthesized_witness :
    FuseNotebookDir._classify okFS ["data"] ["nb.ipynb"] = (some .nb, nbPath) ∧
    FuseNotebookDir.getattr okFS geNone false ["data"] [] ["nb.ipynb"] =
      (.ok ⟨11, 12, 13, 0o40000 ||| 0o775, 15, 1, 4096, 18⟩, []) :=
  ⟨rfl, nbroot_getattr_synthesized okFS geNone false ["data"] [] ["nb.ipynb"] nbPath rfl⟩

end Fusebook
